import Mathlib

/-!
Verification of the Dagitoru video-summary pipeline (Slack ingress →
Supabase transfer stage → DB-trigger notifier → Vercel processing
orchestrator → Slack notification adapter).

The TypeScript/Deno handlers are shallowly embedded as pure Lean
functions.  JavaScript strings are modelled as `List Char` (`Str`);
JavaScript numbers appearing in the modelled paths stay well below
2^53, so they are modelled exactly as `Nat`/`Int`.  Every external
effect (Slack API, Supabase storage and database, Whisper, Gemini,
Notion, the clock, uuid generation, HMAC) is an explicit input to the
handler model, and every database write the handler performs is
returned in an explicit trace.
-/

namespace Dagitoru

/-- JavaScript strings, modelled as lists of unicode scalar characters. -/
abbrev Str := List Char

/-- The whitespace recognised by JavaScript `trim`, `parseInt` and the
regex class `\s` (ASCII whitespace plus NBSP / BOM; exotic unicode
space separators are outside the texts this system handles). -/
def jsWhitespace (c : Char) : Bool :=
  c = ' ' ∨ c = '\t' ∨ c = '\n' ∨ c = '\r' ∨ c = '\x0b' ∨ c = '\x0c' ∨
  c = ' ' ∨ c = '﻿'

/-- JavaScript `String.prototype.trim`. -/
def jsTrim (s : Str) : Str :=
  ((s.dropWhile jsWhitespace).reverse.dropWhile jsWhitespace).reverse

/-- The regex class `\d`, i.e. the ASCII digits. -/
def isDigit (c : Char) : Bool := '0' ≤ c ∧ c ≤ '9'

/-- Numeric value of a list of ASCII digits. -/
def digitsToNat (ds : Str) : Nat :=
  ds.foldl (fun a c => a * 10 + (c.toNat - 48)) 0

/-- JavaScript `parseInt(s, 10)`: skip leading whitespace, optional
sign, then the maximal run of leading digits; `NaN` (here `none`) when
no digit is found.  (Exact integers; the modelled inputs stay far
below the 2^53 precision limit of JS numbers.) -/
def jsParseInt (s : Str) : Option Int :=
  let s1 := s.dropWhile jsWhitespace
  let signAndRest : Int × Str :=
    match s1 with
    | '-' :: r => (-1, r)
    | '+' :: r => (1, r)
    | _ => (1, s1)
  let ds := signAndRest.2.takeWhile isDigit
  if ds = [] then none else some (signAndRest.1 * (digitsToNat ds : Int))

/-- Decimal rendering of a natural number, as JS renders small integers. -/
def natToStr (n : Nat) : Str := (toString n).data

/-- Decimal rendering of an integer, as JS template interpolation of a
small integral number. -/
def intToStr (i : Int) : Str :=
  if i < 0 then '-' :: natToStr i.natAbs else natToStr i.natAbs

/-- JavaScript `a || b` for a possibly-absent string `a` (both
`undefined`/`null` and the empty string are falsy). -/
def jsOr (a : Option Str) (b : Str) : Str :=
  match a with
  | some s => if s = [] then b else s
  | none => b

/-- Truthiness of a possibly-absent string. -/
def jsTruthy (a : Option Str) : Bool :=
  match a with
  | some s => s ≠ []
  | none => false

/-- UTF-8 byte length of a string, as `Buffer.from(s, 'utf8').length`. -/
def utf8Len (s : Str) : Nat := (s.map Char.utf8Size).sum

/-- JavaScript `xs.split(sep)` for a one-character separator. -/
def jsSplit (sep : Char) (s : Str) : List Str := s.splitOn sep

/-! ## Date normalisation (`parseDateToISO`, `apps/webhook-vercel/src/app/api/slack/events/route.ts` lines 51-65)

`dateString.replace(/年|月/g, '/').replace(/日/g, '').split('/')`, then
`parseInt` on each of exactly three parts, then zero-padded
re-assembly.  Note that `-` and `.` separators are *not* replaced by
`/`, so a `YYYY-MM-DD` text yields a single part and the function
returns `undefined`. -/

/-- `replace(/年|月/g, '/').replace(/日/g, '')`. -/
def replaceDateSeps (s : Str) : Str :=
  (s.map (fun c => if c = '年' ∨ c = '月' then '/' else c)).filter (fun c => c ≠ '日')

/-- Zero-pad a (parsed) month or day component exactly as the template
string does: prepend `0` when the number is below ten. -/
def pad2 (i : Int) : Str :=
  if i < 10 then '0' :: intToStr i else intToStr i

/-- `parseDateToISO` of the ingress route: `undefined` (here `none`)
unless the separator-normalised text splits on `/` into exactly three
`parseInt`-able parts. -/
def parseDateToISO (s : Str) : Option Str :=
  if s = [] then none else
  match jsSplit '/' (replaceDateSeps s) with
  | [p1, p2, p3] =>
    match jsParseInt p1, jsParseInt p2, jsParseInt p3 with
    | some y, some m, some d =>
      some (intToStr y ++ '-' :: pad2 m ++ '-' :: pad2 d)
    | _, _, _ => none
  | _ => none

/-! ## The ingress date regex `/(\d{4})[\/\-\.年](\d{1,2})[\/\-\.月](\d{1,2})日?/`

A direct backtracking matcher for this one pattern: leftmost match,
greedy `\d{1,2}` with backtracking into the following separator
class. -/

/-- First separator class `[\/\-\.年]`. -/
def isSep1 (c : Char) : Bool := c = '/' ∨ c = '-' ∨ c = '.' ∨ c = '年'

/-- Second separator class `[\/\-\.月]`. -/
def isSep2 (c : Char) : Bool := c = '/' ∨ c = '-' ∨ c = '.' ∨ c = '月'

/-- Greedy `\d{1,2}` with backtracking: try two digits, fall back to
one when the continuation `k` (the rest of the pattern) fails. -/
def matchOneTwoDigits (s : Str) (k : Str → Option Str) : Option Str :=
  match s with
  | a :: b :: rest =>
    if isDigit a then
      if isDigit b then
        match k rest with
        | some t => some (a :: b :: t)
        | none => (k (b :: rest)).map (fun t => a :: t)
      else (k (b :: rest)).map (fun t => a :: t)
    else none
  | [a] =>
    if isDigit a then (k []).map (fun t => a :: t) else none
  | [] => none

/-- The trailing `日?` (greedy, cannot fail). -/
def matchOptDaySuffix (s : Str) : Str :=
  match s with
  | '日' :: _ => ['日']
  | _ => []

/-- `[\/\-\.月]\d{1,2}日?`. -/
def matchDateTail (s : Str) : Option Str :=
  match s with
  | c :: rest =>
    if isSep2 c then
      (matchOneTwoDigits rest (fun s2 => some (matchOptDaySuffix s2))).map (fun t => c :: t)
    else none
  | [] => none

/-- Try the whole date pattern at the current position; on success
return `match[0]`. -/
def matchDateAt (s : Str) : Option Str :=
  match s with
  | y1 :: y2 :: y3 :: y4 :: c5 :: rest =>
    if isDigit y1 ∧ isDigit y2 ∧ isDigit y3 ∧ isDigit y4 ∧ isSep1 c5 then
      (matchOneTwoDigits rest matchDateTail).map (fun t => y1 :: y2 :: y3 :: y4 :: c5 :: t)
    else none
  | _ => none

/-- Leftmost match of the date pattern (`text.match(re)` and take
`match[0]`). -/
def findDateMatch : Str → Option Str
  | [] => none
  | c :: rest =>
    match matchDateAt (c :: rest) with
    | some m => some m
    | none => findDateMatch rest

/-! ## The labelled-name regexes of the ingress route

`/(?:コンサルタント名|コンサルタント|担当者|担当)[:：\s]*([^\n\s]+)/i` and
`/(?:クライアント名|クライアント|顧客名|会社名|顧客)[:：\s]*([^\n\s]+)/i`
(the `i` flag is a no-op on these keyword alphabets). -/

/-- The separator class `[:：\s]`. -/
def isLabelSep (c : Char) : Bool := c = ':' ∨ c = '：' ∨ jsWhitespace c

/-- The capture class `[^\n\s]`. -/
def isCaptureChar (c : Char) : Bool := ¬ (c = '\n' ∨ jsWhitespace c)

/-- Greedy `[:：\s]*` followed by the capture group `([^\n\s]+)`, with
backtracking from the star into the group (a `:` lies in both
classes).  Returns the capture. -/
def matchLabelValue : Str → Option Str
  | [] => none
  | c :: rest =>
    if isLabelSep c then
      match matchLabelValue rest with
      | some cap => some cap
      | none =>
        if isCaptureChar c then some ((c :: rest).takeWhile isCaptureChar) else none
    else if isCaptureChar c then some ((c :: rest).takeWhile isCaptureChar) else none

/-- Try the keyword alternatives in regex order at the current
position; on a keyword whose continuation fails, fall through to the
next alternative. -/
def tryLabelKeywords (kws : List Str) (s : Str) : Option Str :=
  match kws with
  | [] => none
  | k :: rest =>
    if k.isPrefixOf s then
      match matchLabelValue (s.drop k.length) with
      | some cap => some cap
      | none => tryLabelKeywords rest s
    else tryLabelKeywords rest s

/-- Leftmost match of a labelled-name pattern; returns `match[1]`. -/
def findLabelValue (kws : List Str) : Str → Option Str
  | [] => none
  | c :: rest =>
    match tryLabelKeywords kws (c :: rest) with
    | some cap => some cap
    | none => findLabelValue kws rest

/-- Keyword alternatives of the consultant regex, in regex order. -/
def consultantKeywords : List Str :=
  ["コンサルタント名".data, "コンサルタント".data, "担当者".data, "担当".data]

/-- Keyword alternatives of the client regex, in regex order. -/
def clientKeywords : List Str :=
  ["クライアント名".data, "クライアント".data, "顧客名".data, "会社名".data, "顧客".data]

/-- Result record of `parseSlackMessageText`
(`apps/webhook-vercel/src/app/api/slack/events/route.ts` lines 68-86). -/
structure ParsedSlackText where
  meetingDate : Option Str := none
  consultantName : Option Str := none
  clientName : Option Str := none
  fullText : Str := []
deriving Repr, DecidableEq

/-- `parseSlackMessageText` of the ingress route: empty/absent text
returns the empty record; otherwise `meetingDate` is the normalised
first date match (left `undefined` when `parseDateToISO` fails on it),
and the two names are the trimmed first captures of the keyword
regexes. -/
def parseSlackMessageText (text : Option Str) : ParsedSlackText :=
  match text with
  | none => { fullText := [] }
  | some t =>
    if t = [] then { fullText := [] }
    else
      { fullText := t
        meetingDate := (findDateMatch t).bind parseDateToISO
        consultantName := (findLabelValue consultantKeywords t).map jsTrim
        clientName := (findLabelValue clientKeywords t).map jsTrim }

/-! ## A model of `JSON.parse` / `JSON.stringify`

`Json` is the value universe; numbers keep their source lexeme (the
modelled flows never compute with them, so double rounding is
irrelevant), strings are scalar sequences (the one divergence from
UTF-16: lone surrogates cannot be represented, and none occur in the
modelled texts). -/

inductive Json where
  | null
  | bool (b : Bool)
  | num (lexeme : Str)
  | str (s : Str)
  | arr (elems : List Json)
  | obj (members : List (Str × Json))
deriving Repr

/-- JSON insignificant whitespace. -/
def jsonWs (c : Char) : Bool := c = ' ' ∨ c = '\t' ∨ c = '\n' ∨ c = '\r'

/-- Lower-case hex digit for a value below 16. -/
def hexDigitChar (n : Nat) : Char :=
  if n < 10 then Char.ofNat (48 + n) else Char.ofNat (87 + n)

/-- Value of a hex digit. -/
def hexVal (c : Char) : Option Nat :=
  if '0' ≤ c ∧ c ≤ '9' then some (c.toNat - 48)
  else if 'a' ≤ c ∧ c ≤ 'f' then some (c.toNat - 87)
  else if 'A' ≤ c ∧ c ≤ 'F' then some (c.toNat - 55)
  else none

/-- `JSON.stringify` escaping of one string character. -/
def escChar (c : Char) : Str :=
  if c = '"' then ['\\', '"']
  else if c = '\\' then ['\\', '\\']
  else if c = '\x08' then ['\\', 'b']
  else if c = '\x0c' then ['\\', 'f']
  else if c = '\n' then ['\\', 'n']
  else if c = '\r' then ['\\', 'r']
  else if c = '\t' then ['\\', 't']
  else if c.toNat < 32 then
    ['\\', 'u', '0', '0', hexDigitChar (c.toNat / 16), hexDigitChar (c.toNat % 16)]
  else [c]

/-- `JSON.stringify` escaping of a whole string body. -/
def escString (s : Str) : Str := (s.map escChar).flatten

/-- A serialised JSON string literal. -/
def quoteString (s : Str) : Str := '"' :: escString s ++ ['"']

/-- Prefix-cons on the first component of a parser result. -/
def consFst (c : Char) (p : Str × Str) : Str × Str := (c :: p.1, p.2)

/-- Parse a JSON string body (opening quote already consumed): the
unescaped content and the remainder after the closing quote. -/
def parseJsonString : Str → Option (Str × Str)
  | [] => none
  | c :: rest =>
    if c = '"' then some ([], rest)
    else if c = '\\' then
      match rest with
      | [] => none
      | e :: rest2 =>
        if e = '"' then (parseJsonString rest2).map (consFst '"')
        else if e = '\\' then (parseJsonString rest2).map (consFst '\\')
        else if e = '/' then (parseJsonString rest2).map (consFst '/')
        else if e = 'b' then (parseJsonString rest2).map (consFst '\x08')
        else if e = 'f' then (parseJsonString rest2).map (consFst '\x0c')
        else if e = 'n' then (parseJsonString rest2).map (consFst '\n')
        else if e = 'r' then (parseJsonString rest2).map (consFst '\r')
        else if e = 't' then (parseJsonString rest2).map (consFst '\t')
        else if e = 'u' then
          match rest2 with
          | h1 :: h2 :: h3 :: h4 :: rest3 =>
            match hexVal h1, hexVal h2, hexVal h3, hexVal h4 with
            | some a, some b, some c2, some d =>
              (parseJsonString rest3).map (consFst (Char.ofNat (4096 * a + 256 * b + 16 * c2 + d)))
            | _, _, _, _ => none
          | _ => none
        else none
    else if c.toNat < 32 then none
    else (parseJsonString rest).map (consFst c)

/-- Leading digits and the rest. -/
def takeDigits (s : Str) : Str × Str := (s.takeWhile isDigit, s.dropWhile isDigit)

/-- JSON number: integer part (`0` or a nonzero-led digit run). -/
def parseIntPart (s : Str) : Option (Str × Str) :=
  match s with
  | c :: rest =>
    if c = '0' then some (['0'], rest)
    else if isDigit c then
      let p := takeDigits rest
      some (c :: p.1, p.2)
    else none
  | [] => none

/-- JSON number: optional fraction part. -/
def parseFracPart (s : Str) : Option (Str × Str) :=
  match s with
  | '.' :: rest =>
    let p := takeDigits rest
    if p.1 = [] then none else some ('.' :: p.1, p.2)
  | _ => some ([], s)

/-- JSON number: optional exponent part. -/
def parseExpPart (s : Str) : Option (Str × Str) :=
  match s with
  | c :: rest =>
    if c = 'e' ∨ c = 'E' then
      let signAndRest : Str × Str :=
        match rest with
        | '+' :: r => (['+'], r)
        | '-' :: r => (['-'], r)
        | _ => ([], rest)
      let p := takeDigits signAndRest.2
      if p.1 = [] then none else some (c :: signAndRest.1 ++ p.1, p.2)
    else some ([], s)
  | [] => some ([], [])

/-- A JSON number lexeme. -/
def parseJsonNumber (s : Str) : Option (Str × Str) :=
  let signAndRest : Str × Str :=
    match s with
    | '-' :: r => (['-'], r)
    | _ => ([], s)
  match parseIntPart signAndRest.2 with
  | none => none
  | some (ip, r1) =>
    match parseFracPart r1 with
    | none => none
    | some (fp, r2) =>
      match parseExpPart r2 with
      | none => none
      | some (ep, r3) => some (signAndRest.1 ++ ip ++ fp ++ ep, r3)

/-- Consume a literal keyword. -/
def stripLit (lit : Str) (s : Str) : Option Str :=
  if lit.isPrefixOf s then some (s.drop lit.length) else none

mutual

/-- Recursive-descent JSON value parser; the fuel only bounds the
nesting recursion and `2 * length + 2` always suffices (every
two fuel levels consume at least one character). -/
def parseJsonValue : Nat → Str → Option (Json × Str)
  | 0, _ => none
  | fuel + 1, s0 =>
    let s := s0.dropWhile jsonWs
    match s with
    | '"' :: rest => (parseJsonString rest).map (fun p => (Json.str p.1, p.2))
    | '{' :: rest =>
      let r1 := rest.dropWhile jsonWs
      match r1 with
      | '}' :: r2 => some (Json.obj [], r2)
      | _ =>
        match parseJsonMembers fuel r1 with
        | some (ms, r2) => some (Json.obj ms, r2)
        | none => none
    | '[' :: rest =>
      let r1 := rest.dropWhile jsonWs
      match r1 with
      | ']' :: r2 => some (Json.arr [], r2)
      | _ =>
        match parseJsonElems fuel r1 with
        | some (es, r2) => some (Json.arr es, r2)
        | none => none
    | _ =>
      match stripLit "true".data s with
      | some r => some (Json.bool true, r)
      | none =>
        match stripLit "false".data s with
        | some r => some (Json.bool false, r)
        | none =>
          match stripLit "null".data s with
          | some r => some (Json.null, r)
          | none => (parseJsonNumber s).map (fun p => (Json.num p.1, p.2))

/-- Nonempty member list of an object, up to and including the
closing brace.  Called on whitespace-stripped input. -/
def parseJsonMembers : Nat → Str → Option (List (Str × Json) × Str)
  | 0, _ => none
  | fuel + 1, s =>
    match s with
    | '"' :: rest =>
      match parseJsonString rest with
      | none => none
      | some (key, r1) =>
        match r1.dropWhile jsonWs with
        | ':' :: r2 =>
          match parseJsonValue fuel r2 with
          | none => none
          | some (v, r3) =>
            match r3.dropWhile jsonWs with
            | ',' :: r4 =>
              match parseJsonMembers fuel (r4.dropWhile jsonWs) with
              | some (ms, r5) => some ((key, v) :: ms, r5)
              | none => none
            | '}' :: r4 => some ([(key, v)], r4)
            | _ => none
        | _ => none
    | _ => none

/-- Nonempty element list of an array, up to and including the
closing bracket. -/
def parseJsonElems : Nat → Str → Option (List Json × Str)
  | 0, _ => none
  | fuel + 1, s =>
    match parseJsonValue fuel s with
    | none => none
    | some (v, r1) =>
      match r1.dropWhile jsonWs with
      | ',' :: r2 =>
        match parseJsonElems fuel r2 with
        | some (es, r3) => some (v :: es, r3)
        | none => none
      | ']' :: r2 => some ([v], r2)
      | _ => none

end

/-- `JSON.parse`: a complete value followed only by whitespace. -/
def jsonParse (s : Str) : Option Json :=
  match parseJsonValue (2 * s.length + 2) s with
  | some (v, rest) => if rest.dropWhile jsonWs = [] then some v else none
  | none => none

mutual

/-- `JSON.stringify` (no indentation). -/
def jsonStringify : Json → Str
  | .null => "null".data
  | .bool true => "true".data
  | .bool false => "false".data
  | .num l => l
  | .str s => quoteString s
  | .arr es => '[' :: stringifyElems es ++ [']']
  | .obj ms => '{' :: stringifyMembers ms ++ ['}']

/-- Comma-joined serialised array elements. -/
def stringifyElems : List Json → Str
  | [] => []
  | [e] => jsonStringify e
  | e :: es => jsonStringify e ++ ',' :: stringifyElems es

/-- Comma-joined serialised object members. -/
def stringifyMembers : List (Str × Json) → Str
  | [] => []
  | [(k, v)] => quoteString k ++ ':' :: jsonStringify v
  | (k, v) :: ms => quoteString k ++ ':' :: jsonStringify v ++ ',' :: stringifyMembers ms

end

/-! ## The structured summary
(`interface StructuredSummary`, `apps/webhook-vercel/src/app/api/process-task/route.ts` lines 49-56) -/

structure StructuredSummary where
  meeting_title : Str
  meeting_basics : Str
  meeting_objective_agenda : Str
  discussions_decisions : Str
  next_schedule : Str
  other_notes : Str
deriving Repr, DecidableEq

/-- The six-field summary as the JSON object that
`JSON.stringify(structuredSummary)` serialises (interface field
order). -/
def summaryToJson (s : StructuredSummary) : Json :=
  .obj [("meeting_title".data, .str s.meeting_title),
        ("meeting_basics".data, .str s.meeting_basics),
        ("meeting_objective_agenda".data, .str s.meeting_objective_agenda),
        ("discussions_decisions".data, .str s.discussions_decisions),
        ("next_schedule".data, .str s.next_schedule),
        ("other_notes".data, .str s.other_notes)]

/-! ## Gemini response cleaning
(`responseText.replace(/^```json\n?|\n?```$/g, "").trim()`, route.ts line 214) -/

/-- The anchored alternative `^```json\n?` (greedy optional newline). -/
def stripFenceOpen : Str → Str
  | '`' :: '`' :: '`' :: 'j' :: 's' :: 'o' :: 'n' :: '\n' :: r => r
  | '`' :: '`' :: '`' :: 'j' :: 's' :: 'o' :: 'n' :: r => r
  | s => s

/-- The anchored alternative `\n?```$` (the earlier-starting match of
the scan, i.e. with the newline when one precedes the fence). -/
def stripFenceClose (s : Str) : Str :=
  match s.reverse with
  | '`' :: '`' :: '`' :: '\n' :: r => r.reverse
  | '`' :: '`' :: '`' :: r => r.reverse
  | _ => s

/-- The orchestrator's defensive unwrap of the raw Gemini response. -/
def cleanGeminiResponse (s : Str) : Str :=
  jsTrim (stripFenceClose (stripFenceOpen s))

/-! ## The Task row and generic update application -/

/-- The fields of a `transcription_tasks` row that the modelled
handlers read or write. -/
structure TaskRow where
  status : Str := []
  storage_path : Option Str := none
  error_message : Option Str := none
  transcription_result : Option Str := none
  summary_result : Option Str := none
  notion_page_id : Option Str := none
  processed_at : Bool := false
deriving Repr, DecidableEq

/-! ## Transfer Stage (`upload_file_to_storage` Supabase function, `src/unnamed/part_001`) -/

/-- The trigger payload of the Transfer Stage. -/
structure TransferPayload where
  taskId : Option Str := none
  slack_file_id : Option Str := none
  slack_download_url : Option Str := none
  original_file_name : Option Str := none
  mimetype : Option Str := none
  filetype : Option Str := none
deriving Repr, DecidableEq

/-- Result of the origin (Slack) fetch: HTTP status class, body
presence, and the error body text read on failure. -/
structure FetchResult where
  ok : Bool
  hasBody : Bool
  status : Nat
  bodyText : Str := []
deriving Repr, DecidableEq

/-- One `update` issued by the Transfer Stage's `updateTaskStatus`:
`status` always, plus the optional extra payload fields
(`error_message := some none` models an explicit SQL `null`). -/
structure TransferUpdate where
  taskId : Str
  status : Str
  storage_path : Option Str := none
  error_message : Option (Option Str) := none
deriving Repr, DecidableEq

structure TransferOutcome where
  updates : List TransferUpdate
  respStatus : Nat
deriving Repr, DecidableEq

/-- `mimetype.split("/")[1]`. -/
def splitPart1 (s : Str) : Str := ((jsSplit '/' s).get? 1).getD []

/-- The storage-key extension: declared filetype, refined from the
MIME type for `video/*` and `audio/*`, with `quicktime → mov` and
`mpeg → mp3` normalisation. -/
def transferExtension (mimetype filetype : Str) : Str :=
  let e0 := if filetype = [] then "dat".data else filetype
  let e1 :=
    if "video/".data.isPrefixOf mimetype then splitPart1 mimetype
    else if "audio/".data.isPrefixOf mimetype then
      (if splitPart1 mimetype = "mpeg".data then "mp3".data else splitPart1 mimetype)
    else e0
  if e1 = "quicktime".data then "mov".data else e1

/-- The deterministic storage key of a task. -/
def transferStoragePath (taskId : Str) (mimetype filetype : Str) : Str :=
  "uploads/".data ++ taskId ++ '.' :: transferExtension mimetype filetype

/-- The Transfer Stage handler. Inputs: environment health, the parsed
trigger payload (`none` = request body did not parse), the origin
fetch outcome (`.error` = the fetch itself threw), and the storage
upload error, if any.  Output: the trace of task updates issued and
the HTTP response status. -/
def transferRun (envOk : Bool) (payload : Option TransferPayload)
    (fetch : Except Str FetchResult) (uploadError : Option Str) : TransferOutcome :=
  if ¬ envOk then ⟨[], 500⟩ else
  match payload with
  | none => ⟨[], 400⟩
  | some p =>
    if ¬ (jsTruthy p.taskId ∧ jsTruthy p.slack_download_url ∧
          jsTruthy p.original_file_name ∧ jsTruthy p.mimetype ∧ jsTruthy p.filetype) then
      ⟨[], 400⟩
    else
      let tid := p.taskId.getD []
      let mt := p.mimetype.getD []
      let ft := p.filetype.getD []
      match fetch with
      | .error e => ⟨[⟨tid, "upload_failed".data, none, some (some e)⟩], 500⟩
      | .ok fr =>
        if ¬ fr.ok ∨ ¬ fr.hasBody then
          ⟨[⟨tid, "upload_failed".data, none,
             some (some ("Slack download failed: ".data ++ natToStr fr.status ++
                         " - ".data ++ fr.bodyText.take 200))⟩], 500⟩
        else
          match uploadError with
          | some msg =>
            ⟨[⟨tid, "upload_failed".data, none,
               some (some ("Supabase Storage upload failed: ".data ++ msg))⟩], 500⟩
          | none =>
            ⟨[⟨tid, "uploaded".data, some (transferStoragePath tid mt ft), some none⟩], 200⟩

/-- Apply one Transfer Stage update to a task row (absent payload
fields leave the column unchanged). -/
def applyTransferUpdate (t : TaskRow) (u : TransferUpdate) : TaskRow :=
  { t with
    status := u.status
    storage_path := match u.storage_path with | some p => some p | none => t.storage_path
    error_message := match u.error_message with | some v => v | none => t.error_message }

/-! ## DB-trigger notifier (`supabase/functions/process-video-task/index.ts`) -/

structure NotifierInput where
  payloadOk : Bool := true
  recId : Option Str := none
  recPath : Option Str := none
  dbEnvOk : Bool := true
  webhookUrlOk : Bool := true
  webhook : Except Str (Bool × Nat × Str) := .ok (true, 200, [])
deriving Repr

/-- One `update` issued by the notifier's `updateTaskStatus`
(`error_message` set only when the message is truthy). -/
structure NotifierUpdate where
  taskId : Str
  status : Str
  error_message : Option Str := none
deriving Repr, DecidableEq

/-- Error message set when a truthy string was passed. -/
def notifierErrField (msg : Str) : Option Str :=
  if msg = [] then none else some msg

/-- The DB-trigger notifier: validates the trigger payload, POSTs the
Vercel webhook, and records `webhook_sent` / `webhook_failed` /
`function_error` on the task. -/
def notifierRun (inp : NotifierInput) : List NotifierUpdate × Nat :=
  if ¬ inp.payloadOk then ([], 500) else
  if ¬ (jsTruthy inp.recId ∧ jsTruthy inp.recPath) then ([], 500) else
  let rid := inp.recId.getD []
  if ¬ inp.dbEnvOk then ([], 500) else
  if ¬ inp.webhookUrlOk then
    ([⟨rid, "function_error".data,
       notifierErrField "Environment variable VERCEL_WEBHOOK_URL not set".data⟩], 500)
  else
    match inp.webhook with
    | .error e => ([⟨rid, "function_error".data, notifierErrField e⟩], 500)
    | .ok (ok, status, body) =>
      if ¬ ok then
        ([⟨rid, "webhook_failed".data,
           notifierErrField ("Vercel webhook error: ".data ++ natToStr status ++ " - ".data ++ body)⟩,
          ⟨rid, "function_error".data,
           notifierErrField ("Vercel webhook notification failed: ".data ++ natToStr status)⟩], 500)
      else
        ([⟨rid, "webhook_sent".data, none⟩], 200)

/-! ## Slack request verification
(`verifySlackRequest`, `apps/webhook-vercel/src/app/api/slack/events/route.ts` lines 22-48) -/

/-- The HMAC-SHA256 hex primitive (secret, message ↦ digest), an
abstract parameter of the embedding. -/
structure CryptoModel where
  hmacHex : Str → Str → Str

/-- `crypto.timingSafeEqual` throws on buffers of different byte
length, so verification has three outcomes. -/
inductive VerifyResult where
  | ok
  | reject
  | threw
deriving Repr, DecidableEq

structure SlackHeaders where
  signature : Option Str := none
  timestamp : Option Str := none
deriving Repr, DecidableEq

/-- `v0:${timestamp}:${body}`. -/
def slackBasestring (ts body : Str) : Str := "v0:".data ++ ts ++ ':' :: body

/-- `v0=` followed by the hex HMAC of the basestring. -/
def expectedSignature (cm : CryptoModel) (secret ts body : Str) : Str :=
  "v0=".data ++ cm.hmacHex secret (slackBasestring ts body)

/-- `verifySlackRequest`: missing secret or headers reject; a parsed
timestamp older than five minutes rejects; then the computed signature
is compared in constant time (throwing when the byte lengths differ). -/
def verifySlackRequest (cm : CryptoModel) (secret : Option Str) (h : SlackHeaders)
    (body : Str) (nowMs : Int) : VerifyResult :=
  if ¬ jsTruthy secret then .reject else
  if ¬ (jsTruthy h.signature ∧ jsTruthy h.timestamp) then .reject else
  let sec := secret.getD []
  let sig := h.signature.getD []
  let ts := h.timestamp.getD []
  let fiveMinutesAgo : Int := Int.fdiv nowMs 1000 - 300
  let stale : Bool :=
    match jsParseInt ts with
    | some t => decide (t < fiveMinutesAgo)
    | none => false
  if stale then .reject
  else
    let mySig := expectedSignature cm sec ts body
    if utf8Len mySig ≠ utf8Len sig then .threw
    else if mySig = sig then .ok else .reject

/-! ## Ingress Adapter (`/api/slack/events` POST) -/

/-- The parts of the Slack `files.info` file object the route reads. -/
structure SlackFileData where
  url_private_download : Option Str := none
  name : Option Str := none
  mimetype : Option Str := none
  filetype : Option Str := none
  initial_comment : Option Str := none
deriving Repr, DecidableEq

/-- All inputs of one `/api/slack/events` invocation: configuration,
request, the parse of the JSON body, the `files.info` outcome
(`.error` = the call threw), the database insert outcome, the fresh
uuid, and the clock. -/
structure EventsInput where
  secret : Option Str := none
  botToken : Option Str := none
  supabaseInit : Bool := true
  headers : SlackHeaders := {}
  rawBody : Str := []
  bodyType : Option Str := none
  eventType : Option Str := none
  fileId : Option Str := none
  fileInfo : Except Str (Bool × Option SlackFileData) := .ok (true, none)
  insertError : Option Str := none
  uuid : Str := []
  nowMs : Int := 0
deriving Repr

/-- A handler either returns a JSON response with a status (and for
the accepted path, the task id), or threw out of the route (the
platform then responds with an error). -/
inductive HandlerResult where
  | resp (status : Nat) (taskId : Option Str)
  | thrown
deriving Repr, DecidableEq

/-- The row inserted into `transcription_tasks` by the ingress route. -/
structure EventsInsert where
  id : Str
  original_file_name : Str
  slack_file_id : Option Str
  slack_download_url : Str
  mimetype : Str
  filetype : Str
  status : Str
  meeting_date : Option Str
  consultant_name : Option Str
  client_name : Option Str
deriving Repr, DecidableEq

structure EventsOutcome where
  inserts : List EventsInsert
  result : HandlerResult
deriving Repr, DecidableEq

/-- The `/api/slack/events` POST handler: signature verification, the
`url_verification` challenge, then for `file_shared` events the
`files.info` lookup, comment parsing and the single
`status = upload_pending` task insert, answered with HTTP 202. -/
def slackEventsPost (cm : CryptoModel) (inp : EventsInput) : EventsOutcome :=
  match verifySlackRequest cm inp.secret inp.headers inp.rawBody inp.nowMs with
  | .threw => ⟨[], .thrown⟩
  | .reject => ⟨[], .resp 403 none⟩
  | .ok =>
    if inp.bodyType = some "url_verification".data then ⟨[], .resp 200 none⟩
    else if inp.eventType = some "file_shared".data then
      if ¬ inp.supabaseInit then ⟨[], .resp 500 none⟩
      else if ¬ jsTruthy inp.botToken then ⟨[], .resp 500 none⟩
      else
        match inp.fileInfo with
        | .error _ => ⟨[], .resp 500 none⟩
        | .ok (ok, fd?) =>
          if ¬ ok ∨ fd? = none then ⟨[], .resp 500 none⟩
          else
            let fd := fd?.getD {}
            if ¬ jsTruthy fd.url_private_download then ⟨[], .resp 400 none⟩
            else
              let messageText := jsOr fd.initial_comment []
              let parsed := parseSlackMessageText (some messageText)
              let task : EventsInsert :=
                { id := inp.uuid
                  original_file_name := jsOr fd.name "unknown_file".data
                  slack_file_id := inp.fileId
                  slack_download_url := fd.url_private_download.getD []
                  mimetype := jsOr fd.mimetype "application/octet-stream".data
                  filetype := jsOr fd.filetype "dat".data
                  status := "upload_pending".data
                  meeting_date := parsed.meetingDate
                  consultant_name := parsed.consultantName
                  client_name := parsed.clientName }
              match inp.insertError with
              | some _ => ⟨[], .resp 500 none⟩
              | none => ⟨[task], .resp 202 (some inp.uuid)⟩
    else ⟨[], .resp 200 none⟩

/-! ## The `/api/slack-intake` route (multipart direct upload) -/

/-- Inputs of one `/api/slack-intake` invocation.  The intake route
has its own, richer accompanying-text parser; no claim depends on its
output, so its result is an abstract input here. -/
structure IntakeInput where
  supabaseInit : Bool := true
  secret : Option Str := none
  headers : SlackHeaders := {}
  rawBody : Str := []
  nowMs : Int := 0
  filePresent : Bool := true
  fileName : Str := []
  parsed : ParsedSlackText := {}
  storageResult : Except Str (Option Str) := .ok none
  insertResult : Except Str Str := .ok []
deriving Repr

/-- The row inserted into `transcription_tasks` by the intake route. -/
structure IntakeInsert where
  storage_path : Str
  original_file_name : Str
  status : Str
  meeting_date : Option Str
  consultant_name : Option Str
  client_name : Option Str
deriving Repr, DecidableEq

structure IntakeOutcome where
  inserts : List IntakeInsert
  result : HandlerResult
deriving Repr, DecidableEq

/-- The `/api/slack-intake` POST handler: inline signature check
(missing headers 400, stale 403, mismatch 403 or a thrown
`timingSafeEqual`), then storage upload and the single
`status = uploaded` task insert. -/
def slackIntakePost (cm : CryptoModel) (inp : IntakeInput) : IntakeOutcome :=
  if ¬ inp.supabaseInit then ⟨[], .resp 500 none⟩ else
  if ¬ jsTruthy inp.secret then ⟨[], .resp 500 none⟩ else
  if ¬ (jsTruthy inp.headers.signature ∧ jsTruthy inp.headers.timestamp) then ⟨[], .resp 400 none⟩ else
  let sec := inp.secret.getD []
  let sig := inp.headers.signature.getD []
  let ts := inp.headers.timestamp.getD []
  let fiveMinutesAgo : Int := Int.fdiv inp.nowMs 1000 - 300
  let stale : Bool :=
    match jsParseInt ts with
    | some t => decide (t < fiveMinutesAgo)
    | none => false
  if stale then ⟨[], .resp 403 none⟩
  else
    let mySig := expectedSignature cm sec ts inp.rawBody
    if utf8Len mySig ≠ utf8Len sig then ⟨[], .thrown⟩
    else if mySig ≠ sig then ⟨[], .resp 403 none⟩
    else if ¬ inp.filePresent then ⟨[], .resp 400 none⟩
    else
      match inp.storageResult with
      | .error _ => ⟨[], .resp 500 none⟩
      | .ok none => ⟨[], .resp 500 none⟩
      | .ok (some path) =>
        match inp.insertResult with
        | .error _ => ⟨[], .resp 500 none⟩
        | .ok newId =>
          ⟨[{ storage_path := path
              original_file_name := inp.fileName
              status := "uploaded".data
              meeting_date := inp.parsed.meetingDate
              consultant_name := inp.parsed.consultantName
              client_name := inp.parsed.clientName }], .resp 200 (some newId)⟩

/-! ## Processing Orchestrator (`/api/process-task` POST) -/

/-- The task columns the orchestrator reads back at step 1. -/
structure TaskCtx where
  meeting_date : Option Str := none
  consultant_name : Option Str := none
  client_name : Option Str := none
  original_file_name : Option Str := none
deriving Repr, DecidableEq

/-- All inputs of one `/api/process-task` invocation: configuration,
request body, and one oracle per external call (`.error` = that call
threw / failed, carrying the underlying message). -/
structure OrchInput where
  envOk : Bool := true
  taskId : Option Str := none
  storagePath : Option Str := none
  fetchTask : Except Str TaskCtx := .ok {}
  storageDownload : Except Str Unit := .ok ()
  whisper : Except Str Str := .ok []
  gemini : Except Str Str := .ok []
  notion1 : Except Str Str := .ok []
  notion2 : Except Str Str := .ok []
  notion3 : Except Str Str := .ok []
deriving Repr

/-- One `update` issued by the orchestrator's `updateTaskInSupabase`:
the new status plus whichever payload fields the call passed
(`processed_at` is filled in automatically on `completed`). -/
structure OrchUpdate where
  status : Str
  error_message : Option Str := none
  transcription_result : Option Str := none
  summary_result : Option Str := none
  notion_page_id : Option (Option Str) := none
  processed_at : Bool := false
deriving Repr, DecidableEq

/-- Build the update record exactly as `updateTaskInSupabase` does. -/
def mkOrchUpdate (status : Str) (em tr sr : Option Str)
    (np : Option (Option Str)) : OrchUpdate :=
  { status := status, error_message := em, transcription_result := tr,
    summary_result := sr, notion_page_id := np,
    processed_at := status = "completed".data }

/-- The trace of one orchestrator run: every task update issued (in
call order), the destination databases attempted and those whose
creation failed and was logged, the notification payload statuses
sent, and the HTTP response status. -/
structure OrchOutcome where
  writes : List OrchUpdate
  notionAttempts : List Nat := []
  notionFailLogs : List Nat := []
  notifies : List Str := []
  respStatus : Nat
deriving Repr, DecidableEq

/-- `storagePath.split('/').pop() || 'video_from_storage.mp4'`. -/
def lastPathComponent (sp : Str) : Str :=
  jsOr ((jsSplit '/' sp).getLast?) "video_from_storage.mp4".data

/-- `parseDateToISO` lifted over an absent column. -/
def optParseDateToISO (o : Option Str) : Option Str :=
  match o with
  | some s => parseDateToISO s
  | none => none

/-- `downloadVideoFromStorage`: rejects an empty path, otherwise wraps
the storage error message. -/
def orchDownload (sp : Str) (d : Except Str Unit) : Except Str Unit :=
  if sp = [] then
    .error ("Invalid filePathOnBucket: ".data ++ sp ++ ". Expected format: path/to/file.mp4".data)
  else
    match d with
    | .error e =>
      .error ("Failed to download video (bucket: videos, path: ".data ++ sp ++ "): ".data ++ e)
    | .ok _ => .ok ()

/-- `transcribeVideoWithWhisper`: wraps any Whisper failure message. -/
def orchWhisper (fileName : Str) (w : Except Str Str) : Except Str Str :=
  match w with
  | .error m => .error ("Whisper API request failed for ".data ++ fileName ++ ": ".data ++ m)
  | .ok t => .ok t

/-- Stand-in for the engine-specific `SyntaxError` message of a failed
`JSON.parse`; the modelled flows use only that it is some non-empty
text. -/
def jsonSyntaxErrorMessage : Str := "Unexpected token".data

/-- `summarizeTextWithGemini`: on an API failure or a `JSON.parse`
failure of the fence-stripped response text, throws
`Gemini API request failed: …`; otherwise yields the parsed value. -/
def orchGemini (g : Except Str Str) : Except Str Json :=
  match g with
  | .error e => .error ("Gemini API request failed: ".data ++ e)
  | .ok raw =>
    match jsonParse (cleanGeminiResponse raw) with
    | some j => .ok j
    | none => .error ("Gemini API request failed: ".data ++ jsonSyntaxErrorMessage)

/-- `createNotionPage` returns the page id, or `null` after logging
the individual failure (it never throws). -/
def notionPageId (r : Except Str Str) : Option Str :=
  match r with
  | .ok pid => some pid
  | .error _ => none

/-- The outcome of every path that ends in the top-level catch: one
`failed_in_vercel` update carrying the error message, one `failed`
notification, HTTP 500. -/
def orchFailure (earlier : List OrchUpdate) (msg : Str) : OrchOutcome :=
  { writes := earlier ++ [mkOrchUpdate "failed_in_vercel".data (some msg) none none none]
    notifies := ["failed".data]
    respStatus := 500 }

/-- The `/api/process-task` POST handler: fetch task context, mark
`processing_in_vercel`, download, transcribe (checkpointing
`transcription_result`), summarise (checkpointing `summary_result`),
create the three destination pages independently, mark `completed`,
notify once. -/
def processTaskRun (inp : OrchInput) : OrchOutcome :=
  if ¬ inp.envOk then ⟨[], [], [], [], 500⟩ else
  if ¬ (jsTruthy inp.taskId ∧ jsTruthy inp.storagePath) then ⟨[], [], [], [], 400⟩ else
  let sp := inp.storagePath.getD []
  match inp.fetchTask with
  | .error e => orchFailure [] ("Failed to fetch task details: ".data ++ e)
  | .ok _ctx =>
    let w1 := mkOrchUpdate "processing_in_vercel".data none none none none
    let fileName := lastPathComponent sp
    match orchDownload sp inp.storageDownload with
    | .error e => orchFailure [w1] e
    | .ok _ =>
      match orchWhisper fileName inp.whisper with
      | .error e => orchFailure [w1] e
      | .ok transcript =>
        let w2 := mkOrchUpdate "transcribed_in_vercel".data none (some transcript) none none
        match orchGemini inp.gemini with
        | .error e => orchFailure [w1, w2] e
        | .ok j =>
          let w3 := mkOrchUpdate "summarized_in_vercel".data none none
                      (some (jsonStringify j)) none
          let p1 := notionPageId inp.notion1
          let p2 := notionPageId inp.notion2
          let p3 := notionPageId inp.notion3
          let ids := List.intercalate [','] ([p1, p2, p3].filterMap id)
          let w4 := mkOrchUpdate "completed".data none none none
                      (some (if ids = [] then none else some ids))
          { writes := [w1, w2, w3, w4]
            notionAttempts := [1, 2, 3]
            notionFailLogs :=
              (if p1 = none then [1] else []) ++ (if p2 = none then [2] else []) ++
              (if p3 = none then [3] else [])
            notifies := ["completed".data]
            respStatus := 200 }

/-- Apply one orchestrator update to a task row. -/
def applyOrchUpdate (t : TaskRow) (u : OrchUpdate) : TaskRow :=
  { t with
    status := u.status
    error_message := match u.error_message with | some v => some v | none => t.error_message
    transcription_result :=
      match u.transcription_result with | some v => some v | none => t.transcription_result
    summary_result := match u.summary_result with | some v => some v | none => t.summary_result
    notion_page_id := match u.notion_page_id with | some v => v | none => t.notion_page_id
    processed_at := t.processed_at ∨ u.processed_at }

/-- The durable task state after a run: the k-th update takes effect
only when the database accepted it (`dbErrs` is the per-call error
oracle; `updateTaskInSupabase` merely logs a rejection). -/
def durableOrchState (t : TaskRow) (writes : List OrchUpdate)
    (dbErrs : List (Option Str)) : TaskRow :=
  (writes.enum.foldl
    (fun acc iu =>
      if dbErrs.getD iu.1 none = none then applyOrchUpdate acc iu.2 else acc) t)

/-! ## Notification Adapter (`/api/slack/notify` POST) -/

/-- The human-facing summary preview of the success message:
`summary_text.substring(0, 300)` with an ellipsis appended when the
text is longer than 300 characters. -/
def notifySummaryPreview (summaryText : Str) : Str :=
  summaryText.take 300 ++ (if 300 < summaryText.length then "...".data else [])

/-! ## Status vocabularies and example inputs -/

/-- The eight states of the spec's state machine (§4.4). -/
def eightStates : List Str :=
  ["upload_pending".data, "uploaded".data, "processing".data, "transcribed".data,
   "summarized".data, "completed".data, "upload_failed".data, "failed".data]

/-- Every status literal actually written by some pipeline component. -/
def pipelineStatuses : List Str :=
  ["upload_pending".data, "uploaded".data, "upload_failed".data,
   "webhook_sent".data, "webhook_failed".data, "function_error".data,
   "processing_in_vercel".data, "transcribed_in_vercel".data,
   "summarized_in_vercel".data, "failed_in_vercel".data, "completed".data]

/-- The failure-class statuses among the written vocabulary. -/
def isFailedClass (s : Str) : Bool :=
  s = "failed".data ∨ s = "failed_in_vercel".data ∨ s = "upload_failed".data ∨
  s = "webhook_failed".data ∨ s = "function_error".data

/-- A trivial concrete HMAC primitive for witnesses. -/
def egCrypto : CryptoModel := ⟨fun _ _ => []⟩

/-- A concrete six-field summary. -/
def egSummary : StructuredSummary :=
  ⟨"T".data, "B".data, "O".data, "D".data, "N".data, "X".data⟩

/-- The canonical serialisation of `egSummary`. -/
def egSummaryJsonText : Str := jsonStringify (summaryToJson egSummary)

/-- A raw Gemini response: the valid summary JSON wrapped in a
` ```json ` fence. -/
def egGeminiRaw : Str := "```json\n".data ++ egSummaryJsonText ++ '\n' :: "```".data

/-- A raw Gemini response wrapped in a *plain* ` ``` ` fence (no
`json` language tag). -/
def egGeminiRawPlainFence : Str := "```\n".data ++ egSummaryJsonText ++ '\n' :: "```".data

/-- A concrete all-steps-succeed orchestrator input (the second
destination-page creation fails). -/
def egOrchInput : OrchInput :=
  { taskId := some "t1".data
    storagePath := some "uploads/t1.mp4".data
    fetchTask := .ok {}
    whisper := .ok "transcript".data
    gemini := .ok egGeminiRaw
    notion1 := .ok "p1".data
    notion2 := .error "boom".data
    notion3 := .ok "p3".data }

/-- A concrete valid transfer payload. -/
def egTransferPayload : TransferPayload :=
  { taskId := some "t1".data
    slack_download_url := some "https://files.slack.example/x".data
    original_file_name := some "v.mov".data
    mimetype := some "video/quicktime".data
    filetype := some "mov".data }

/-- A concrete events-route input whose signature verifies against
`egCrypto` (the expected signature is then exactly `v0=`). -/
def egEventsInput : EventsInput :=
  { secret := some "s".data
    botToken := some "xoxb".data
    headers := { signature := some "v0=".data, timestamp := some "1700000000".data }
    rawBody := "ignored".data
    eventType := some "file_shared".data
    fileId := some "F123".data
    fileInfo := .ok (true, some
      { url_private_download := some "https://files.slack.example/dl".data
        name := some "v.mov".data
        mimetype := some "video/quicktime".data
        filetype := some "mov".data
        initial_comment := some "2024年5月17日 担当: 山田".data })
    uuid := "uuid-1".data
    nowMs := 0 }

/-- One string field as a serialised object member. -/
def strMember (p : Str × Str) : Str × Json := (p.1, Json.str p.2)

/-- The six fields of a structured summary as (key, value) pairs, in
interface order. -/
def summaryFields (s : StructuredSummary) : List (Str × Str) :=
  [("meeting_title".data, s.meeting_title), ("meeting_basics".data, s.meeting_basics),
   ("meeting_objective_agenda".data, s.meeting_objective_agenda),
   ("discussions_decisions".data, s.discussions_decisions),
   ("next_schedule".data, s.next_schedule), ("other_notes".data, s.other_notes)]

/-- A concrete events-route input with a stale timestamp header. -/
def egStaleEventsInput : EventsInput :=
  { secret := some "s".data
    headers := { signature := some "v0=".data, timestamp := some "0".data }
    rawBody := "b".data
    nowMs := 1000000000000 }

/-! # Theorems -/

/-- C6: Scenario A holds — the text `2024年5月17日` (and likewise the
slash format) normalises to zero-padded `2024-05-17` — but a date
written `YYYY-MM-DD` is matched by the ingress date regex and still
yields no `meetingDate`: `parseDateToISO` replaces only `年`/`月` by
`/` before splitting on `/`, so a `-`-separated date never splits into
three parts, although the route's own comment documents `YYYY-MM-DD`
as a supported format. -/
theorem c6_date_formats :
    (parseSlackMessageText (some "2024年5月17日".data)).meetingDate = some "2024-05-17".data ∧
    (parseSlackMessageText (some "2024/5/17".data)).meetingDate = some "2024-05-17".data ∧
    findDateMatch "2024-05-17".data = some "2024-05-17".data ∧
    parseDateToISO "2024-05-17".data = none ∧
    (parseSlackMessageText (some "2024-05-17".data)).meetingDate = none := by
  decide

/-- C2: a Transfer Stage run with a valid payload: when it completes
successfully the single update it issues leaves the task with status
`uploaded`, the deterministic non-null `storage_path`, and
`error_message` cleared to null; when the origin fetch is non-2xx or
has no body, the single update sets `upload_failed` with a non-null
`error_message` and leaves `storage_path` untouched. -/
theorem c2_transfer_success_and_fetch_failure
    (p : TransferPayload) (fr : FetchResult) (t : TaskRow)
    (hp : jsTruthy p.taskId ∧ jsTruthy p.slack_download_url ∧ jsTruthy p.original_file_name ∧
          jsTruthy p.mimetype ∧ jsTruthy p.filetype) :
    ((fr.ok ∧ fr.hasBody) →
      (transferRun true (some p) (.ok fr) none).respStatus = 200 ∧
      ∀ u ∈ (transferRun true (some p) (.ok fr) none).updates,
        (applyTransferUpdate t u).status = "uploaded".data ∧
        (applyTransferUpdate t u).storage_path =
          some (transferStoragePath (p.taskId.getD []) (p.mimetype.getD []) (p.filetype.getD [])) ∧
        (applyTransferUpdate t u).error_message = none) ∧
    ((¬ fr.ok ∨ ¬ fr.hasBody) → ∀ uploadError,
      (transferRun true (some p) (.ok fr) uploadError).respStatus = 500 ∧
      (transferRun true (some p) (.ok fr) uploadError).updates.length = 1 ∧
      ∀ u ∈ (transferRun true (some p) (.ok fr) uploadError).updates,
        (applyTransferUpdate t u).status = "upload_failed".data ∧
        (applyTransferUpdate t u).error_message ≠ none ∧
        (applyTransferUpdate t u).storage_path = t.storage_path) := by
  obtain ⟨h1, h2, h3, h4, h5⟩ := hp
  constructor
  · rintro ⟨hok, hbody⟩
    simp [transferRun, h1, h2, h3, h4, h5, hok, hbody, applyTransferUpdate]
  · intro hbad uploadError
    cases hok : fr.ok with
    | true =>
      cases hbody : fr.hasBody with
      | true => rw [hok, hbody] at hbad; simp at hbad
      | false => simp [transferRun, h1, h2, h3, h4, h5, hok, hbody, applyTransferUpdate]
    | false => simp [transferRun, h1, h2, h3, h4, h5, hok, applyTransferUpdate]

/-- C3: when the orchestrator's transcription step throws (task id and
storage path present, context fetched, download succeeded), the run
writes no `summary_result` anywhere, its final update is a
failed-class status with a non-null `error_message`, exactly one
failure notification is sent, and the response is an error. -/
theorem c3_transcription_failure_isolated
    (inp : OrchInput) (tid sp e : Str) (ctx : TaskCtx)
    (henv : inp.envOk = true)
    (htid : inp.taskId = some tid) (htidne : tid ≠ [])
    (hsp : inp.storagePath = some sp) (hspne : sp ≠ [])
    (hctx : inp.fetchTask = .ok ctx)
    (hdl : inp.storageDownload = .ok ())
    (hw : inp.whisper = .error e) :
    (∀ w ∈ (processTaskRun inp).writes, w.summary_result = none) ∧
    (∃ u, (processTaskRun inp).writes.getLast? = some u ∧
          isFailedClass u.status = true ∧ u.error_message ≠ none) ∧
    (processTaskRun inp).notifies = ["failed".data] ∧
    (processTaskRun inp).respStatus = 500 := by
  simp only [processTaskRun, henv, htid, hsp, hctx, hdl, hw]
  simp [jsTruthy, htidne, hspne, orchDownload, orchWhisper, orchFailure, mkOrchUpdate,
    isFailedClass]

/-- C5: when transcription and summarisation succeed, all three
destination-page creations are attempted whatever their individual
outcomes, each individual failure is logged, the final update still
advances the task to `completed`, and the single notification reports
completion. -/
theorem c5_publish_failures_do_not_abort
    (inp : OrchInput) (tid sp tr raw : Str) (ctx : TaskCtx) (j : Json)
    (henv : inp.envOk = true)
    (htid : inp.taskId = some tid) (htidne : tid ≠ [])
    (hsp : inp.storagePath = some sp) (hspne : sp ≠ [])
    (hctx : inp.fetchTask = .ok ctx)
    (hdl : inp.storageDownload = .ok ())
    (hw : inp.whisper = .ok tr)
    (hg : inp.gemini = .ok raw)
    (hparse : jsonParse (cleanGeminiResponse raw) = some j) :
    (processTaskRun inp).notionAttempts = [1, 2, 3] ∧
    (notionPageId inp.notion1 = none → 1 ∈ (processTaskRun inp).notionFailLogs) ∧
    (notionPageId inp.notion2 = none → 2 ∈ (processTaskRun inp).notionFailLogs) ∧
    (notionPageId inp.notion3 = none → 3 ∈ (processTaskRun inp).notionFailLogs) ∧
    (∃ u, (processTaskRun inp).writes.getLast? = some u ∧ u.status = "completed".data) ∧
    (processTaskRun inp).notifies = ["completed".data] ∧
    (processTaskRun inp).respStatus = 200 := by
  simp only [processTaskRun, henv, htid, hsp, hctx, hdl, hw, hg]
  simp only [orchGemini, hparse]
  simp [jsTruthy, htidne, hspne, orchDownload, orchWhisper, mkOrchUpdate]

/-- C10: the orchestrator's update helper swallows database
rejections, so for any per-call database error oracle an otherwise
successful run still reports success and notifies completion, while a
rejected `summary_result` checkpoint write is simply absent from the
durable task state. -/
theorem c10_rejected_checkpoint_still_success
    (inp : OrchInput) (tid sp tr raw : Str) (ctx : TaskCtx) (j : Json)
    (dbErrs : List (Option Str)) (t : TaskRow)
    (henv : inp.envOk = true)
    (htid : inp.taskId = some tid) (htidne : tid ≠ [])
    (hsp : inp.storagePath = some sp) (hspne : sp ≠ [])
    (hctx : inp.fetchTask = .ok ctx)
    (hdl : inp.storageDownload = .ok ())
    (hw : inp.whisper = .ok tr)
    (hg : inp.gemini = .ok raw)
    (hparse : jsonParse (cleanGeminiResponse raw) = some j)
    (hdb : dbErrs.getD 2 none ≠ none) :
    (processTaskRun inp).respStatus = 200 ∧
    (processTaskRun inp).notifies = ["completed".data] ∧
    (durableOrchState t (processTaskRun inp).writes dbErrs).summary_result = t.summary_result := by
  have hwrites : (processTaskRun inp).writes =
      [mkOrchUpdate "processing_in_vercel".data none none none none,
       mkOrchUpdate "transcribed_in_vercel".data none (some tr) none none,
       mkOrchUpdate "summarized_in_vercel".data none none (some (jsonStringify j)) none,
       mkOrchUpdate "completed".data none none none
         (some (if List.intercalate [','] ([notionPageId inp.notion1, notionPageId inp.notion2,
                  notionPageId inp.notion3].filterMap id) = [] then none
                else some (List.intercalate [','] ([notionPageId inp.notion1,
                  notionPageId inp.notion2, notionPageId inp.notion3].filterMap id))))] := by
    simp only [processTaskRun, henv, htid, hsp, hctx, hdl, hw, hg]
    simp only [orchGemini, hparse]
    simp [jsTruthy, htidne, hspne, orchDownload, orchWhisper]
  refine ⟨?_, ?_, ?_⟩
  · simp only [processTaskRun, henv, htid, hsp, hctx, hdl, hw, hg]
    simp only [orchGemini, hparse]
    simp [jsTruthy, htidne, hspne, orchDownload, orchWhisper]
  · simp only [processTaskRun, henv, htid, hsp, hctx, hdl, hw, hg]
    simp only [orchGemini, hparse]
    simp [jsTruthy, htidne, hspne, orchDownload, orchWhisper]
  · rw [hwrites]
    simp only [durableOrchState, List.enum, List.enumFrom, List.foldl]
    split_ifs <;> simp_all [applyOrchUpdate, mkOrchUpdate]

/-- Witness for C2 at a concrete payload: the successful run answers
200, a 404 fetch answers 500. -/
theorem c2_transfer_witness :
    (transferRun true (some egTransferPayload) (.ok ⟨true, true, 200, []⟩) none).respStatus = 200 ∧
    (transferRun true (some egTransferPayload) (.ok ⟨false, false, 404, "x".data⟩) none).respStatus = 500 := by
  constructor
  · exact ((c2_transfer_success_and_fetch_failure egTransferPayload ⟨true, true, 200, []⟩ {}
      (by decide)).1 ⟨rfl, rfl⟩).1
  · exact (((c2_transfer_success_and_fetch_failure egTransferPayload ⟨false, false, 404, "x".data⟩ {}
      (by decide)).2 (Or.inl (by decide))) none).1

/-- Witness for C3 at a concrete input whose transcription fails. -/
theorem c3_transcription_failure_witness :
    (processTaskRun { egOrchInput with whisper := .error "w fail".data }).notifies = ["failed".data] ∧
    (processTaskRun { egOrchInput with whisper := .error "w fail".data }).respStatus = 500 := by
  have h := c3_transcription_failure_isolated
    { egOrchInput with whisper := .error "w fail".data }
    "t1".data "uploads/t1.mp4".data "w fail".data {}
    rfl rfl (by decide) rfl (by decide) rfl rfl rfl
  exact ⟨h.2.2.1, h.2.2.2⟩

set_option maxRecDepth 10000 in
/-- Witness for C5 at a concrete input whose second destination-page
creation fails: all three are attempted, the failure is logged, the
run still succeeds. -/
theorem c5_publish_failures_witness :
    (processTaskRun egOrchInput).notionAttempts = [1, 2, 3] ∧
    2 ∈ (processTaskRun egOrchInput).notionFailLogs ∧
    (processTaskRun egOrchInput).respStatus = 200 := by
  have h := c5_publish_failures_do_not_abort egOrchInput "t1".data "uploads/t1.mp4".data
    "transcript".data egGeminiRaw {} (summaryToJson egSummary)
    rfl rfl (by decide) rfl (by decide) rfl rfl rfl rfl (by rfl)
  exact ⟨h.1, h.2.2.1 rfl, h.2.2.2.2.2.2⟩

set_option maxRecDepth 10000 in
/-- Witness for C10 at a concrete input whose third task update (the
`summary_result` checkpoint) is rejected by the database: the run
still answers 200 and the durable row keeps no `summary_result`. -/
theorem c10_rejected_checkpoint_witness :
    (processTaskRun egOrchInput).respStatus = 200 ∧
    (durableOrchState {} (processTaskRun egOrchInput).writes
      [none, none, some "db down".data]).summary_result = none := by
  have h := c10_rejected_checkpoint_still_success egOrchInput "t1".data "uploads/t1.mp4".data
    "transcript".data egGeminiRaw {} (summaryToJson egSummary)
    [none, none, some "db down".data] {}
    rfl rfl (by decide) rfl (by decide) rfl rfl rfl rfl (by rfl) (by decide)
  exact ⟨h.1, h.2.2⟩

/-- C7: an ingress event whose timestamp header parses to a time more
than five minutes old, or whose signature differs from the HMAC of the
raw body, creates no task row and is answered with 403 (or, when the
constant-time comparison throws on a length mismatch, the handler
throws and the platform answers with an error). -/
theorem c7_stale_or_invalid_rejected (cm : CryptoModel) (inp : EventsInput) (sec sig ts : Str)
    (hsec : inp.secret = some sec)
    (hsig : inp.headers.signature = some sig)
    (hts : inp.headers.timestamp = some ts)
    (hbad : (∃ tv, jsParseInt ts = some tv ∧ tv < Int.fdiv inp.nowMs 1000 - 300) ∨
            sig ≠ expectedSignature cm sec ts inp.rawBody) :
    (slackEventsPost cm inp).inserts = [] ∧
    ((slackEventsPost cm inp).result = .resp 403 none ∨
     (slackEventsPost cm inp).result = .thrown) := by
  have hv : verifySlackRequest cm inp.secret inp.headers inp.rawBody inp.nowMs ≠ .ok := by
    intro hok
    simp only [verifySlackRequest, hsec, hsig, hts, Option.getD_some] at hok
    rcases hjp : jsParseInt ts with _ | tv
    all_goals rw [hjp] at hok
    all_goals split_ifs at hok
    all_goals simp_all [expectedSignature]
    all_goals omega
  rcases hres : verifySlackRequest cm inp.secret inp.headers inp.rawBody inp.nowMs with _ | _ | _
  · exact absurd hres hv
  · simp [slackEventsPost, hres]
  · simp [slackEventsPost, hres]

/-- Witness for C7: a concrete event whose timestamp header is far
older than five minutes creates nothing and is rejected. -/
theorem c7_stale_witness :
    (slackEventsPost egCrypto egStaleEventsInput).inserts = [] ∧
    ((slackEventsPost egCrypto egStaleEventsInput).result = .resp 403 none ∨
     (slackEventsPost egCrypto egStaleEventsInput).result = .thrown) :=
  c7_stale_or_invalid_rejected egCrypto egStaleEventsInput "s".data "v0=".data "0".data
    rfl rfl rfl (Or.inl ⟨0, by decide, by decide⟩)

/-- Every task row the ingress route ever inserts carries the freshly
generated uuid of that invocation as its id. -/
theorem events_insert_id (cm : CryptoModel) (inp : EventsInput) (t : EventsInsert)
    (ht : t ∈ (slackEventsPost cm inp).inserts) : t.id = inp.uuid := by
  unfold slackEventsPost at ht
  repeat' (split at ht)
  all_goals simp_all [apply_ite EventsOutcome.inserts]

/-- C8: a validly signed `file_shared` event whose file metadata
resolves with a download URL inserts exactly one task, with status
`upload_pending` and the freshly generated uuid as id, and is answered
with HTTP 202 carrying that task id; a run with a different fresh uuid
can never insert a task with the same id. -/
theorem c8_accepted_single_insert (cm : CryptoModel) (inp : EventsInput) (fd : SlackFileData)
    (hok : verifySlackRequest cm inp.secret inp.headers inp.rawBody inp.nowMs = .ok)
    (hnotchal : inp.bodyType ≠ some "url_verification".data)
    (hev : inp.eventType = some "file_shared".data)
    (hsb : inp.supabaseInit = true)
    (htok : jsTruthy inp.botToken = true)
    (hfi : inp.fileInfo = .ok (true, some fd))
    (hurl : jsTruthy fd.url_private_download = true)
    (hins : inp.insertError = none) :
    (slackEventsPost cm inp).inserts.map EventsInsert.id = [inp.uuid] ∧
    (slackEventsPost cm inp).inserts.map EventsInsert.status = ["upload_pending".data] ∧
    (slackEventsPost cm inp).result = .resp 202 (some inp.uuid) ∧
    (∀ (cm2 : CryptoModel) (inp2 : EventsInput) (t2 : EventsInsert),
      t2 ∈ (slackEventsPost cm2 inp2).inserts → inp2.uuid ≠ inp.uuid → t2.id ≠ inp.uuid) := by
  refine ⟨?_, ?_, ?_, fun cm2 inp2 t2 h2 hne => ?_⟩
  · simp [slackEventsPost, hok, hnotchal, hev, hsb, htok, hfi, hurl, hins]
  · simp [slackEventsPost, hok, hnotchal, hev, hsb, htok, hfi, hurl, hins]
  · simp [slackEventsPost, hok, hnotchal, hev, hsb, htok, hfi, hurl, hins]
  · rw [events_insert_id cm2 inp2 t2 h2]; exact hne

/-- Witness for C8 at a concrete valid signed event. -/
theorem c8_accepted_witness :
    (slackEventsPost egCrypto egEventsInput).inserts.map EventsInsert.id = ["uuid-1".data] ∧
    (slackEventsPost egCrypto egEventsInput).inserts.map EventsInsert.status =
      ["upload_pending".data] ∧
    (slackEventsPost egCrypto egEventsInput).result = .resp 202 (some "uuid-1".data) := by
  have h := c8_accepted_single_insert egCrypto egEventsInput
    { url_private_download := some "https://files.slack.example/dl".data
      name := some "v.mov".data
      mimetype := some "video/quicktime".data
      filetype := some "mov".data
      initial_comment := some "2024年5月17日 担当: 山田".data }
    (by decide) (by decide) rfl rfl (by decide) rfl (by decide) rfl
  exact ⟨h.1, h.2.1, h.2.2.1⟩

/-- Every status the orchestrator ever writes lies in the written
vocabulary. -/
theorem orch_statuses_all (inp : OrchInput) :
    ((processTaskRun inp).writes.all (fun w => decide (w.status ∈ pipelineStatuses))) = true := by
  unfold processTaskRun
  split_ifs
  rotate_left
  · decide
  · decide
  · cases hft : inp.fetchTask with
    | error e => simp [hft, orchFailure, mkOrchUpdate, pipelineStatuses]
    | ok ctx =>
      cases hdl : orchDownload (inp.storagePath.getD []) inp.storageDownload with
      | error e => simp [hft, hdl, orchFailure, mkOrchUpdate, pipelineStatuses]
      | ok u =>
        cases hwh : orchWhisper (lastPathComponent (inp.storagePath.getD [])) inp.whisper with
        | error e => simp [hft, hdl, hwh, orchFailure, mkOrchUpdate, pipelineStatuses]
        | ok tr =>
          cases hge : orchGemini inp.gemini with
          | error e => simp [hft, hdl, hwh, hge, orchFailure, mkOrchUpdate, pipelineStatuses]
          | ok j => simp [hft, hdl, hwh, hge, mkOrchUpdate, pipelineStatuses]

/-- Every status the Transfer Stage ever writes lies in the written
vocabulary. -/
theorem transfer_statuses_all (envOk : Bool) (p : Option TransferPayload)
    (f : Except Str FetchResult) (ue : Option Str) :
    ((transferRun envOk p f ue).updates.all (fun u => decide (u.status ∈ pipelineStatuses))) = true := by
  unfold transferRun
  repeat' split
  all_goals simp [pipelineStatuses]

/-- Every status the DB-trigger notifier ever writes lies in the
written vocabulary. -/
theorem notifier_statuses_all (inp : NotifierInput) :
    ((notifierRun inp).1.all (fun u => decide (u.status ∈ pipelineStatuses))) = true := by
  unfold notifierRun
  repeat' split
  all_goals simp [pipelineStatuses]

/-- Every status the ingress route ever inserts lies in the written
vocabulary. -/
theorem events_statuses_all (cm : CryptoModel) (inp : EventsInput) :
    ((slackEventsPost cm inp).inserts.all (fun t => decide (t.status ∈ pipelineStatuses))) = true := by
  unfold slackEventsPost
  repeat' split
  all_goals simp [pipelineStatuses, apply_ite EventsOutcome.inserts]

/-- Every status the intake route ever inserts lies in the written
vocabulary. -/
theorem intake_statuses_all (cm : CryptoModel) (inp : IntakeInput) :
    ((slackIntakePost cm inp).inserts.all (fun t => decide (t.status ∈ pipelineStatuses))) = true := by
  unfold slackIntakePost
  repeat' split
  all_goals simp [pipelineStatuses, apply_ite IntakeOutcome.inserts]
  all_goals (repeat' split)
  all_goals (intros; simp_all [pipelineStatuses])

set_option maxRecDepth 10000 in
/-- C1 counterexample: the orchestrator of a concrete successful run
writes the status `processing_in_vercel`, which is not one of the
eight states of the spec's state machine. -/
theorem c1_counterexample_status_vocabulary :
    "processing_in_vercel".data ∈ (processTaskRun egOrchInput).writes.map OrchUpdate.status ∧
    "processing_in_vercel".data ∉ eightStates := by
  constructor
  · decide
  · decide

/-- C1 (amended): every status value any pipeline component writes to
a Task record lies in the eleven-value written vocabulary
`upload_pending, uploaded, upload_failed, webhook_sent,
webhook_failed, function_error, processing_in_vercel,
transcribed_in_vercel, summarized_in_vercel, failed_in_vercel,
completed` (not in the spec's eight renamed states). -/
theorem c1_statuses_in_written_vocabulary (cm : CryptoModel) (ei : EventsInput)
    (ii : IntakeInput) (envOk : Bool) (tp : Option TransferPayload)
    (f : Except Str FetchResult) (ue : Option Str) (ni : NotifierInput) (oi : OrchInput) :
    (∀ t ∈ (slackEventsPost cm ei).inserts, t.status ∈ pipelineStatuses) ∧
    (∀ t ∈ (slackIntakePost cm ii).inserts, t.status ∈ pipelineStatuses) ∧
    (∀ u ∈ (transferRun envOk tp f ue).updates, u.status ∈ pipelineStatuses) ∧
    (∀ u ∈ (notifierRun ni).1, u.status ∈ pipelineStatuses) ∧
    (∀ w ∈ (processTaskRun oi).writes, w.status ∈ pipelineStatuses) := by
  refine ⟨fun x hx => ?_, fun x hx => ?_, fun x hx => ?_, fun x hx => ?_, fun x hx => ?_⟩
  · simpa using List.all_eq_true.mp (events_statuses_all cm ei) x hx
  · simpa using List.all_eq_true.mp (intake_statuses_all cm ii) x hx
  · simpa using List.all_eq_true.mp (transfer_statuses_all envOk tp f ue) x hx
  · simpa using List.all_eq_true.mp (notifier_statuses_all ni) x hx
  · simpa using List.all_eq_true.mp (orch_statuses_all oi) x hx

set_option maxRecDepth 10000 in
/-- Witness for the amended C1 at a concrete orchestrator run and its
first write. -/
theorem c1_statuses_witness :
    (mkOrchUpdate "processing_in_vercel".data none none none none).status ∈ pipelineStatuses :=
  (c1_statuses_in_written_vocabulary egCrypto egEventsInput {} true (some egTransferPayload)
    (.ok ⟨true, true, 200, []⟩) none {} egOrchInput).2.2.2.2
    (mkOrchUpdate "processing_in_vercel".data none none none none) (by decide)

set_option maxRecDepth 10000 in
/-- C4 counterexample: a summarization response wrapped in a *plain*
code fence (no `json` tag) keeps its surrounding fence markup after
the orchestrator's cleaning step — the cleaned text still begins with
the fence — so the run hard-fails even though the fenced content is a
perfectly valid summary object. -/
theorem c4_counterexample_plain_fence_not_stripped :
    cleanGeminiResponse egGeminiRawPlainFence = "```\n".data ++ egSummaryJsonText ∧
    jsonParse egSummaryJsonText = some (summaryToJson egSummary) ∧
    jsonParse (cleanGeminiResponse egGeminiRawPlainFence) = none ∧
    (processTaskRun { egOrchInput with gemini := .ok egGeminiRawPlainFence }).respStatus = 500 ∧
    (processTaskRun { egOrchInput with gemini := .ok egGeminiRawPlainFence }).writes.map
      OrchUpdate.summary_result = [none, none, none] := by
  refine ⟨by decide, by rfl, by rfl, by rfl, by decide⟩

/-- C4 (amended): the orchestrator strips exactly a leading
` ```json ` fence (with optional newline) and a trailing ` ``` ` fence
(with optional preceding newline) and trims the rest — a plain leading
fence is left in place — and whenever the remaining text is not valid
JSON the run ends as a hard failure of the summarisation step: a
failed-class status with non-null `error_message`, no `summary_result`
ever persisted, one failure notification, an error response. -/
theorem c4_fence_strip_and_parse_failure
    (inp : OrchInput) (tid sp tr raw : Str) (ctx : TaskCtx)
    (henv : inp.envOk = true)
    (htid : inp.taskId = some tid) (htidne : tid ≠ [])
    (hsp : inp.storagePath = some sp) (hspne : sp ≠ [])
    (hctx : inp.fetchTask = .ok ctx)
    (hdl : inp.storageDownload = .ok ())
    (hw : inp.whisper = .ok tr)
    (hg : inp.gemini = .ok raw)
    (hbad : jsonParse (cleanGeminiResponse raw) = none) :
    ((processTaskRun inp).writes.map OrchUpdate.summary_result).all Option.isNone = true ∧
    (∃ u, (processTaskRun inp).writes.getLast? = some u ∧
          isFailedClass u.status = true ∧ u.error_message ≠ none) ∧
    (processTaskRun inp).notifies = ["failed".data] ∧
    (processTaskRun inp).respStatus = 500 ∧
    (∀ body : Str,
      cleanGeminiResponse ("```json\n".data ++ body ++ '\n' :: "```".data) = jsTrim body) ∧
    (∀ body : Str,
      stripFenceOpen ('`' :: '`' :: '`' :: '\n' :: body) = '`' :: '`' :: '`' :: '\n' :: body) := by
  have hstrip : ∀ body : Str,
      cleanGeminiResponse ("```json\n".data ++ body ++ '\n' :: "```".data) = jsTrim body := by
    intro body
    have h2 : stripFenceClose (body ++ '\n' :: "```".data) = body := by
      have hrev : (body ++ '\n' :: "```".data).reverse = '`' :: '`' :: '`' :: '\n' :: body.reverse := by
        simp
      rw [stripFenceClose, hrev]
      simp
    have h1 : stripFenceOpen ("```json\n".data ++ (body ++ '\n' :: "```".data)) =
        body ++ '\n' :: "```".data := rfl
    calc cleanGeminiResponse ("```json\n".data ++ body ++ '\n' :: "```".data)
        = jsTrim (stripFenceClose (stripFenceOpen
            ("```json\n".data ++ (body ++ '\n' :: "```".data)))) := by
          simp [cleanGeminiResponse]
      _ = jsTrim body := by rw [h1, h2]
  refine ⟨?_, ?_, ?_, ?_, hstrip, fun _ => rfl⟩
  all_goals
    simp only [processTaskRun, henv, htid, hsp, hctx, hdl, hw, hg]
  all_goals
    simp only [orchGemini, hbad]
  all_goals
    simp [jsTruthy, htidne, hspne, orchDownload, orchWhisper, orchFailure, mkOrchUpdate,
      isFailedClass]

set_option maxRecDepth 10000 in
/-- Witness for the amended C4 at a concrete non-JSON summarization
response. -/
theorem c4_fence_strip_witness :
    (processTaskRun { egOrchInput with gemini := .ok "oops".data }).notifies = ["failed".data] ∧
    (processTaskRun { egOrchInput with gemini := .ok "oops".data }).respStatus = 500 ∧
    cleanGeminiResponse ("```json\n".data ++ "hello".data ++ '\n' :: "```".data) =
      jsTrim "hello".data := by
  have h := c4_fence_strip_and_parse_failure { egOrchInput with gemini := .ok "oops".data }
    "t1".data "uploads/t1.mp4".data "transcript".data "oops".data {}
    rfl rfl (by decide) rfl (by decide) rfl rfl rfl rfl (by rfl)
  exact ⟨h.2.2.1, h.2.2.2.1, h.2.2.2.2.1 "hello".data⟩


/-- Hex digits decode their own encoding. -/
theorem hexVal_hexDigitChar : ∀ n < 16, hexVal (hexDigitChar n) = some n := by decide

/-- `escString` distributes over cons. -/
theorem escString_cons (c : Char) (cs : Str) :
    escString (c :: cs) = escChar c ++ escString cs := by
  simp [escString]

/-- The JSON string parser undoes `JSON.stringify` escaping exactly,
leaving the remainder after the closing quote untouched. -/
theorem parseJsonString_escString (cs : Str) :
    ∀ rest, parseJsonString (escString cs ++ '"' :: rest) = some (cs, rest) := by
  induction cs with
  | nil =>
    intro rest
    rw [show escString [] = [] from rfl, List.nil_append, parseJsonString.eq_def]
    simp
  | cons c cs ih =>
    intro rest
    rw [escString_cons, List.append_assoc]
    by_cases h1 : c = '"'
    · subst h1
      rw [show escChar '"' ++ (escString cs ++ '"' :: rest) =
            '\\' :: '"' :: (escString cs ++ '"' :: rest) from rfl, parseJsonString.eq_def]
      simp [ih, consFst]
    by_cases h2 : c = '\\'
    · subst h2
      rw [show escChar '\\' ++ (escString cs ++ '"' :: rest) =
            '\\' :: '\\' :: (escString cs ++ '"' :: rest) from rfl, parseJsonString.eq_def]
      simp [ih, consFst]
    by_cases h3 : c = '\x08'
    · subst h3
      rw [show escChar '\x08' ++ (escString cs ++ '"' :: rest) =
            '\\' :: 'b' :: (escString cs ++ '"' :: rest) from rfl, parseJsonString.eq_def]
      simp [ih, consFst]
    by_cases h4 : c = '\x0c'
    · subst h4
      rw [show escChar '\x0c' ++ (escString cs ++ '"' :: rest) =
            '\\' :: 'f' :: (escString cs ++ '"' :: rest) from rfl, parseJsonString.eq_def]
      simp [ih, consFst]
    by_cases h5 : c = '\n'
    · subst h5
      rw [show escChar '\n' ++ (escString cs ++ '"' :: rest) =
            '\\' :: 'n' :: (escString cs ++ '"' :: rest) from rfl, parseJsonString.eq_def]
      simp [ih, consFst]
    by_cases h6 : c = '\r'
    · subst h6
      rw [show escChar '\r' ++ (escString cs ++ '"' :: rest) =
            '\\' :: 'r' :: (escString cs ++ '"' :: rest) from rfl, parseJsonString.eq_def]
      simp [ih, consFst]
    by_cases h7 : c = '\t'
    · subst h7
      rw [show escChar '\t' ++ (escString cs ++ '"' :: rest) =
            '\\' :: 't' :: (escString cs ++ '"' :: rest) from rfl, parseJsonString.eq_def]
      simp [ih, consFst]
    by_cases h8 : c.toNat < 32
    · have hesc : escChar c = ['\\', 'u', '0', '0',
          hexDigitChar (c.toNat / 16), hexDigitChar (c.toNat % 16)] := by
        simp [escChar, h1, h2, h3, h4, h5, h6, h7, h8]
      rw [hesc]
      rw [show (['\\', 'u', '0', '0', hexDigitChar (c.toNat / 16), hexDigitChar (c.toNat % 16)] :
            Str) ++ (escString cs ++ '"' :: rest) =
          '\\' :: 'u' :: '0' :: '0' :: hexDigitChar (c.toNat / 16) ::
            hexDigitChar (c.toNat % 16) :: (escString cs ++ '"' :: rest) from rfl]
      rw [parseJsonString.eq_def]
      have hv1 : hexVal (hexDigitChar (c.toNat / 16)) = some (c.toNat / 16) :=
        hexVal_hexDigitChar _ (by omega)
      have hv2 : hexVal (hexDigitChar (c.toNat % 16)) = some (c.toNat % 16) :=
        hexVal_hexDigitChar _ (by omega)
      have harith : 16 * (c.toNat / 16) + c.toNat % 16 = c.toNat := by omega
      simp [show hexVal '0' = some 0 from rfl, hv1, hv2, harith, Char.ofNat_toNat, ih, consFst]
    · have hesc : escChar c = [c] := by
        simp [escChar, h1, h2, h3, h4, h5, h6, h7, h8]
      rw [hesc, List.singleton_append, parseJsonString.eq_def]
      simp [h1, h2, h3, h8, ih, consFst]

/-- A serialised string literal in cons form. -/
theorem quoteString_cons (s : Str) (rest : Str) :
    quoteString s ++ rest = '"' :: (escString s ++ '"' :: rest) := by
  simp [quoteString]

/-- The JSON value parser undoes string serialisation. -/
theorem parseJsonValue_quote (fuel : Nat) (s rest : Str) :
    parseJsonValue (fuel + 1) (quoteString s ++ rest) = some (Json.str s, rest) := by
  rw [quoteString_cons, parseJsonValue.eq_def]
  simp [List.dropWhile_cons, show jsonWs '"' = false from rfl, parseJsonString_escString]

/-- Serialisation of a one-member object body. -/
theorem stringifyMembers_single (k : Str) (v : Json) :
    stringifyMembers [(k, v)] = quoteString k ++ ':' :: jsonStringify v := by
  rw [stringifyMembers.eq_def]

/-- Serialisation of a multi-member object body. -/
theorem stringifyMembers_cons2 (k : Str) (v : Json) (f2 : Str × Json) (ms : List (Str × Json)) :
    stringifyMembers ((k, v) :: f2 :: ms) =
      quoteString k ++ ':' :: jsonStringify v ++ ',' :: stringifyMembers (f2 :: ms) := by
  rw [stringifyMembers.eq_def]

/-- A serialised nonempty member list starts with a quote. -/
theorem stringifyMembers_head (k v : Str) (ms : List (Str × Json)) :
    ∃ t, stringifyMembers ((k, Json.str v) :: ms) = '"' :: t := by
  cases ms with
  | nil => rw [stringifyMembers_single, quoteString_cons]; exact ⟨_, rfl⟩
  | cons a as => rw [stringifyMembers_cons2, quoteString_cons]; exact ⟨_, rfl⟩

/-- The member parser undoes the serialisation of a nonempty list of
string-valued members, given fuel beyond the member count. -/
theorem parseJsonMembers_flat (fields : List (Str × Str)) :
    ∀ fuel rest, fields ≠ [] → fields.length + 1 ≤ fuel →
      parseJsonMembers fuel (stringifyMembers (fields.map strMember) ++ '}' :: rest) =
        some (fields.map strMember, rest) := by
  induction fields with
  | nil => intro fuel rest hne _; exact absurd rfl hne
  | cons f fs ih =>
    intro fuel rest _ hf
    obtain ⟨m, rfl⟩ : ∃ m, fuel = m + 1 := ⟨fuel - 1, by omega⟩
    obtain ⟨m2, hm2⟩ : ∃ m2, m = m2 + 1 := ⟨m - 1, by simp at hf; omega⟩
    cases fs with
    | nil =>
      rw [show ([f].map strMember) = [(f.1, Json.str f.2)] by simp [strMember]]
      rw [stringifyMembers_single]
      rw [show jsonStringify (Json.str f.2) = quoteString f.2 from rfl]
      rw [List.append_assoc, List.cons_append, quoteString_cons, parseJsonMembers.eq_def]
      simp only [parseJsonString_escString]
      rw [show List.dropWhile jsonWs (':' :: (quoteString f.2 ++ '}' :: rest)) =
            ':' :: (quoteString f.2 ++ '}' :: rest) from rfl]
      rw [hm2]
      simp only [parseJsonValue_quote]
      rw [show List.dropWhile jsonWs ('}' :: rest) = '}' :: rest from rfl]
      rfl
    | cons f2 fs2 =>
      rw [show ((f :: f2 :: fs2).map strMember) =
            (f.1, Json.str f.2) :: (f2.1, Json.str f2.2) :: (fs2.map strMember) by
          simp [strMember]]
      rw [stringifyMembers_cons2]
      rw [show jsonStringify (Json.str f.2) = quoteString f.2 from rfl]
      rw [List.append_assoc, List.cons_append, List.append_assoc, List.cons_append]
      rw [quoteString_cons (s := f.1), parseJsonMembers.eq_def]
      simp only [parseJsonString_escString]
      rw [show List.dropWhile jsonWs (':' :: (quoteString f.2 ++
            ',' :: (stringifyMembers ((f2.1, Json.str f2.2) :: fs2.map strMember) ++ '}' :: rest))) =
          ':' :: (quoteString f.2 ++
            ',' :: (stringifyMembers ((f2.1, Json.str f2.2) :: fs2.map strMember) ++ '}' :: rest)) from rfl]
      rw [hm2]
      simp only [parseJsonValue_quote]
      rw [show List.dropWhile jsonWs (',' ::
            (stringifyMembers ((f2.1, Json.str f2.2) :: fs2.map strMember) ++ '}' :: rest)) =
          ',' :: (stringifyMembers ((f2.1, Json.str f2.2) :: fs2.map strMember) ++ '}' :: rest) from rfl]
      obtain ⟨t, ht⟩ := stringifyMembers_head f2.1 f2.2 (fs2.map strMember)
      have hrec := ih (m2 + 1) rest (by simp) (by simp only [List.length_cons] at hf ⊢; omega)
      rw [show ((f2 :: fs2).map strMember) = (f2.1, Json.str f2.2) :: (fs2.map strMember) by
          simp [strMember]] at hrec
      rw [ht, List.cons_append] at hrec
      rw [ht, List.cons_append]
      simp [show List.dropWhile jsonWs ('"' :: (t ++ '}' :: rest)) = '"' :: (t ++ '}' :: rest)
        from rfl, hrec]

/-- The serialised member list is at least as long as the field list. -/
theorem stringifyMembers_length_ge (fields : List (Str × Str)) :
    fields.length ≤ (stringifyMembers (fields.map strMember)).length := by
  induction fields with
  | nil => simp
  | cons f fs ih =>
    cases fs with
    | nil =>
      rw [show ([f].map strMember) = [(f.1, Json.str f.2)] by simp [strMember],
        stringifyMembers_single]
      simp [quoteString]
    | cons f2 fs2 =>
      rw [show ((f :: f2 :: fs2).map strMember) =
            (f.1, Json.str f.2) :: (f2.1, Json.str f2.2) :: (fs2.map strMember) by simp [strMember],
        stringifyMembers_cons2]
      rw [show ((f2.1, Json.str f2.2) :: (fs2.map strMember)) = ((f2 :: fs2).map strMember) by
        simp [strMember]]
      simp only [List.length_cons, List.length_append, quoteString, List.length_map] at ih ⊢
      omega

/-- The value parser undoes the serialisation of a flat string-valued
object. -/
theorem parseJsonValue_obj_flat (fuel : Nat) (fields : List (Str × Str)) (rest : Str)
    (hne : fields ≠ []) (hfuel : fields.length + 1 ≤ fuel) :
    parseJsonValue (fuel + 1) ('{' :: (stringifyMembers (fields.map strMember) ++ '}' :: rest)) =
      some (Json.obj (fields.map strMember), rest) := by
  obtain ⟨f, fs, rfl⟩ : ∃ f fs, fields = f :: fs := by
    cases fields with
    | nil => exact absurd rfl hne
    | cons f fs => exact ⟨f, fs, rfl⟩
  have hmapc : ((f :: fs).map strMember) = (f.1, Json.str f.2) :: (fs.map strMember) := by
    simp [strMember]
  obtain ⟨t, ht⟩ : ∃ t, stringifyMembers ((f :: fs).map strMember) = '"' :: t := by
    rw [hmapc]; exact stringifyMembers_head f.1 f.2 (fs.map strMember)
  have hmem := parseJsonMembers_flat (f :: fs) fuel rest (by simp) hfuel
  rw [ht, List.cons_append] at hmem
  rw [parseJsonValue.eq_def, ht, List.cons_append]
  simp [show jsonWs '{' = false from rfl, show jsonWs '"' = false from rfl,
    List.dropWhile_cons, hmem]

/-- `JSON.parse` undoes `JSON.stringify` on flat string-valued
objects. -/
theorem jsonParse_stringify_flat (fields : List (Str × Str)) (hne : fields ≠ []) :
    jsonParse (jsonStringify (Json.obj (fields.map strMember))) =
      some (Json.obj (fields.map strMember)) := by
  have hobj : jsonStringify (Json.obj (fields.map strMember)) =
      '{' :: (stringifyMembers (fields.map strMember) ++ '}' :: []) := by
    rw [jsonStringify.eq_def]
    rfl
  unfold jsonParse
  rw [hobj]
  have hF : 2 * ('{' :: (stringifyMembers (fields.map strMember) ++ '}' :: [])).length + 2 =
      (2 * ('{' :: (stringifyMembers (fields.map strMember) ++ '}' :: [])).length + 1) + 1 := rfl
  rw [hF]
  have hfuel : fields.length + 1 ≤
      2 * ('{' :: (stringifyMembers (fields.map strMember) ++ '}' :: [])).length + 1 := by
    have := stringifyMembers_length_ge fields
    simp only [List.length_cons, List.length_append]
    omega
  rw [parseJsonValue_obj_flat _ fields [] hne hfuel]
  rfl

/-- C9: parsing back the persisted `summary_result` string reproduces
all six fields of the structured summary verbatim, while the
notification preview independently truncates to 300 characters,
appending an ellipsis exactly when the text is longer. -/
theorem c9_roundtrip_verbatim_preview_truncated (s : StructuredSummary) (t : Str) :
    jsonParse (jsonStringify (summaryToJson s)) = some (summaryToJson s) ∧
    (t.length ≤ 300 → notifySummaryPreview t = t) ∧
    (300 < t.length → notifySummaryPreview t = t.take 300 ++ "...".data) := by
  refine ⟨?_, fun h => ?_, fun h => ?_⟩
  · have h := jsonParse_stringify_flat (summaryFields s) (by simp [summaryFields])
    have heq : Json.obj ((summaryFields s).map strMember) = summaryToJson s := by
      simp [summaryFields, strMember, summaryToJson]
    rw [heq] at h
    exact h
  · simp [notifySummaryPreview, Nat.not_lt.mpr h, List.take_of_length_le h]
  · simp [notifySummaryPreview, h]

set_option maxRecDepth 10000 in
/-- Witness for C9 at the concrete summary and at texts of length two
and 301. -/
theorem c9_roundtrip_witness :
    jsonParse (jsonStringify (summaryToJson egSummary)) = some (summaryToJson egSummary) ∧
    notifySummaryPreview "hi".data = "hi".data ∧
    notifySummaryPreview (List.replicate 301 'a') =
      (List.replicate 301 'a').take 300 ++ "...".data := by
  refine ⟨(c9_roundtrip_verbatim_preview_truncated egSummary "hi".data).1,
    (c9_roundtrip_verbatim_preview_truncated egSummary "hi".data).2.1 (by decide),
    (c9_roundtrip_verbatim_preview_truncated egSummary (List.replicate 301 'a')).2.2 (by simp)⟩

end Dagitoru
